import Mathlib

/-!
Verification of the table slicing & formatting utilities in
`lib/plotting_tools.py`.

The module is embedded shallowly:
* a pandas DataFrame becomes a list of columns names plus a list of rows;
* a date-indexed frame becomes a list of `(index, row)` pairs with the
  index already converted to a proleptic-Gregorian ordinal (`Int`), which
  is how `datetime` objects compare;
* `datetime.strptime` is modelled by an executable port of CPython's
  `_strptime.py` under the C locale: the per-directive regex alternations
  of `TimeRE` with regex-style backtracking and `re.IGNORECASE`,
  whitespace runs of the format matching `\s+`, the C-locale expansions of
  `%c`/`%x`/`%X`, and the post-match computation (century rule for `%y`,
  missing-year defaults with the Feb-29 fix, week-of-year and ISO-week
  calendar calculations, `%z` offset validation) followed by the
  constructor range checks of `date`/`datetime`. The one directive left
  out is `%Z`, whose accepted names depend on the process environment
  (`time.tzname`): formats using it are outside the model (`fmtModeled`)
  and no theorem speaks about them;
* `datetime ± timedelta` is ordinal arithmetic guarded by `datetime`'s
  supported range (years 1..9999); leaving it models the `OverflowError`;
* numeric cell values become exact rationals and `np.around` becomes
  scale-by-`10^p`, round-half-to-even, divide;
* raising an exception becomes returning `none`;
* the in-place `del x_labels[i]` statement of `preprocess_data` is made
  observable by also returning the caller-visible final state of the
  label list (explicit state passing).
-/

namespace PlottingTools

/-! ### Dates -/

/-- A calendar date as produced by `datetime.strptime`. -/
structure Date where
  year : Nat
  month : Nat
  day : Nat
deriving DecidableEq

/-- Proleptic-Gregorian day number (days-from-civil algorithm, shifted so
that years start in March); two `datetime` values compare exactly like
their ordinals, and `timedelta(days = n)` adds `n` to the ordinal. -/
def Date.toOrdinal (dt : Date) : Int :=
  let y : Nat := if dt.month ≤ 2 then dt.year - 1 else dt.year
  let era : Nat := y / 400
  let yoe : Nat := y % 400
  let mp : Nat := if 2 < dt.month then dt.month - 3 else dt.month + 9
  let doy : Nat := (153 * mp + 2) / 5 + dt.day - 1
  let doe : Nat := yoe * 365 + yoe / 4 - yoe / 100 + doy
  ((era * 146097 + doe : Nat) : Int)

/-- Gregorian leap year test. -/
def isLeap (y : Nat) : Bool :=
  y % 4 == 0 && (y % 100 != 0 || y % 400 == 0)

/-- Number of days of month `m` of year `y` (the `datetime` constructor
rejects a `day` beyond this). -/
def daysInMonth (y m : Nat) : Nat :=
  if m == 2 then (if isLeap y then 29 else 28)
  else if m == 4 || m == 6 || m == 9 || m == 11 then 30
  else 31

/-- The date part of the proleptic-Gregorian `date.fromordinal`
(civil-from-days); meaningful for ordinals of dates with year 1..9999. -/
def fromOrdinal (o : Int) : Date :=
  let z : Nat := o.toNat
  let era : Nat := z / 146097
  let doe : Nat := z % 146097
  let yoe : Nat := (doe - doe / 1460 + doe / 36524 - doe / 146096) / 365
  let y : Nat := yoe + era * 400
  let doy : Nat := doe - (365 * yoe + yoe / 4 - yoe / 100)
  let mp : Nat := (5 * doy + 2) / 153
  let d : Nat := doy - (153 * mp + 2) / 5 + 1
  let m : Nat := if mp < 10 then mp + 3 else mp - 9
  Date.mk (if m ≤ 2 then y + 1 else y) m d

/-- Ordinal of `datetime.min` (0001-01-01): date arithmetic below it
raises `OverflowError`. -/
def minDatetimeOrdinal : Int := (Date.mk 1 1 1).toOrdinal

/-- Ordinal of `datetime.max`'s date (9999-12-31): date arithmetic above
it raises `OverflowError`. -/
def maxDatetimeOrdinal : Int := (Date.mk 9999 12 31).toOrdinal

/-- Numeric value of a decimal digit character. -/
def digitVal (c : Char) : Nat := c.toNat - 48

/-- Is `c` a decimal digit? -/
def isDig (c : Char) : Bool := '0' ≤ c && c ≤ '9'

/-- The character class of the regex `\s` over a Python `str` (the
whitespace characters with the Unicode White_Space property). -/
def pyWs (c : Char) : Bool :=
  let n := c.toNat
  (9 ≤ n && n ≤ 13) || (28 ≤ n && n ≤ 32) || n == 133 || n == 160 || n == 5760 ||
  (8192 ≤ n && n ≤ 8202) || n == 8232 || n == 8233 || n == 8239 || n == 8287 || n == 12288

/-- ASCII lower-casing, as the `re.IGNORECASE` flag applies to the
formats and inputs in scope. -/
def lowerChar (c : Char) : Char := c.toLower

/-- The `strptime` directives of CPython's `_strptime.TimeRE` that this
model covers (all of them except `%Z`, whose accepted names depend on the
process's `time.tzname`; `%c`, `%x` and `%X` are expanded at compile time
to their C-locale sequences, exactly as `TimeRE` inlines
`LC_date_time`/`LC_date`/`LC_time`). -/
inductive Directive where
  | dY | dy | dG | dm | dd | dH | dI | dM | dS | df | dj | dw | du
  | dU | dW | dV | dz | da | dA | db | dB | dp
deriving DecidableEq

/-- One token of a compiled format: a literal character (matched
case-insensitively, `re.IGNORECASE`), a whitespace run (`_strptime`
replaces every whitespace run of the format with `\s+`), or a directive. -/
inductive FmtTok where
  | lit (c : Char)
  | ws
  | dir (d : Directive)
deriving DecidableEq

/-- The directive letter table of `TimeRE` (without `%c`/`%x`/`%X`/`%Z`/`%%`,
which are handled in `tokensOf`). -/
def charDirective (c : Char) : Option Directive :=
  if c == 'Y' then some Directive.dY else if c == 'y' then some Directive.dy
  else if c == 'G' then some Directive.dG else if c == 'm' then some Directive.dm
  else if c == 'd' then some Directive.dd else if c == 'H' then some Directive.dH
  else if c == 'I' then some Directive.dI else if c == 'M' then some Directive.dM
  else if c == 'S' then some Directive.dS else if c == 'f' then some Directive.df
  else if c == 'j' then some Directive.dj else if c == 'w' then some Directive.dw
  else if c == 'u' then some Directive.du else if c == 'U' then some Directive.dU
  else if c == 'W' then some Directive.dW else if c == 'V' then some Directive.dV
  else if c == 'z' then some Directive.dz else if c == 'a' then some Directive.da
  else if c == 'A' then some Directive.dA else if c == 'b' then some Directive.db
  else if c == 'B' then some Directive.dB else if c == 'p' then some Directive.dp
  else none

/-- `%c` under the C locale: `LC_date_time = "%a %b %d %H:%M:%S %Y"`. -/
def cTokens : List FmtTok :=
  [FmtTok.dir Directive.da, FmtTok.ws, FmtTok.dir Directive.db, FmtTok.ws,
   FmtTok.dir Directive.dd, FmtTok.ws, FmtTok.dir Directive.dH, FmtTok.lit ':',
   FmtTok.dir Directive.dM, FmtTok.lit ':', FmtTok.dir Directive.dS, FmtTok.ws,
   FmtTok.dir Directive.dY]

/-- `%x` under the C locale: `LC_date = "%m/%d/%y"`. -/
def xTokens : List FmtTok :=
  [FmtTok.dir Directive.dm, FmtTok.lit '/', FmtTok.dir Directive.dd,
   FmtTok.lit '/', FmtTok.dir Directive.dy]

/-- `%X` under the C locale: `LC_time = "%H:%M:%S"`. -/
def bigXTokens : List FmtTok :=
  [FmtTok.dir Directive.dH, FmtTok.lit ':', FmtTok.dir Directive.dM,
   FmtTok.lit ':', FmtTok.dir Directive.dS]

/-- Scan a format string into tokens, collapsing each whitespace run into
one `ws` token (the flag says whether the previous character was part of a
run). `none` models the `ValueError` of `TimeRE` for a bad directive, for
`%` followed by whitespace (reported as a bad directive `%`), and for a
stray trailing `%`; `%Z` also maps to `none` here and is excluded from the
model by `fmtModeled` below. -/
def tokensOf : List Char → Bool → Option (List FmtTok)
  | [], _ => some []
  | '%' :: c :: rest, _ =>
    if c == '%' then (tokensOf rest false).map (fun ts => FmtTok.lit '%' :: ts)
    else if pyWs c then none
    else if c == 'c' then (tokensOf rest false).map (fun ts => cTokens ++ ts)
    else if c == 'x' then (tokensOf rest false).map (fun ts => xTokens ++ ts)
    else if c == 'X' then (tokensOf rest false).map (fun ts => bigXTokens ++ ts)
    else
      match charDirective c with
      | some d => (tokensOf rest false).map (fun ts => FmtTok.dir d :: ts)
      | none => none
  | ['%'], _ => none
  | c :: rest, prevWs =>
    if pyWs c then
      if prevWs then tokensOf rest true
      else (tokensOf rest true).map (fun ts => FmtTok.ws :: ts)
    else (tokensOf rest false).map (fun ts => FmtTok.lit c :: ts)

/-- The regex group names of the tokens (one per directive occurrence). -/
def dirsOf (ts : List FmtTok) : List Directive :=
  ts.filterMap (fun t =>
    match t with
    | FmtTok.dir d => some d
    | _ => none)

/-- Does the list repeat an element? -/
def hasDup {α : Type} [DecidableEq α] : List α → Bool
  | [] => false
  | a :: as => as.contains a || hasDup as

/-- Compile a format. A repeated directive redefines a regex group name,
which makes `re.compile` raise (`re.error`), so every input fails; this is
collapsed into `none` like the bad-directive `ValueError`. -/
def compileFormat (cs : List Char) : Option (List FmtTok) :=
  match tokensOf cs false with
  | none => none
  | some ts => if hasDup (dirsOf ts) then none else some ts

/-- Value of a digit string. -/
def natOfDigits (cs : List Char) : Nat := cs.foldl (fun acc c => acc * 10 + digitVal c) 0

/-- Exactly `n` decimal digits from the front of the input. -/
def takeDigits : Nat → List Char → Option (List Char × List Char)
  | 0, cs => some ([], cs)
  | _ + 1, [] => none
  | n + 1, c :: cs =>
    if isDig c then (takeDigits n cs).map (fun p => (c :: p.1, p.2)) else none

/-- One regex alternative: the values `lo..hi` written with exactly `n`
digits. Yields the matched characters and the rest. -/
def numAlt (n lo hi : Nat) (cs : List Char) : List (List Char × List Char) :=
  match takeDigits n cs with
  | some (raw, rest) =>
    if lo ≤ natOfDigits raw && natOfDigits raw ≤ hi then [(raw, rest)] else []
  | none => []

/-- The ` [1-9]` alternative of `%d` (a space then a nonzero digit, kept
for ANSI C `%c` data). -/
def spDigAlt : List Char → List (List Char × List Char)
  | ' ' :: c :: rest => if '1' ≤ c && c ≤ '9' then [([' ', c], rest)] else []
  | _ => []

/-- Case-insensitive match of a (lowercase) name against the input;
returns the canonical name and the rest. -/
def ciTake (name : List Char) (cs : List Char) : Option (List Char × List Char) :=
  match name, cs with
  | [], rest => some ([], rest)
  | _ :: _, [] => none
  | n :: ns, c :: rest =>
    if lowerChar c == n then (ciTake ns rest).map (fun p => (n :: p.1, p.2)) else none

/-- The alternatives of a name directive, in the given matching order. -/
def nameAlts (names : List String) (cs : List Char) : List (List Char × List Char) :=
  names.filterMap (fun n => ciTake n.data cs)

/-- C-locale `calendar.day_abbr`, lowercased (`LocaleTime.a_weekday`). -/
def aWeekdays : List String := ["mon", "tue", "wed", "thu", "fri", "sat", "sun"]

/-- C-locale full weekday names (`LocaleTime.f_weekday`). -/
def fWeekdays : List String :=
  ["monday", "tuesday", "wednesday", "thursday", "friday", "saturday", "sunday"]

/-- `f_weekday` sorted by length descending (stable), the matching order
`TimeRE.__seqToRE` uses. -/
def fWeekdaysSorted : List String :=
  ["wednesday", "thursday", "saturday", "tuesday", "monday", "friday", "sunday"]

/-- C-locale month abbreviations (`LocaleTime.a_month` without the dummy
entry). -/
def aMonths : List String :=
  ["jan", "feb", "mar", "apr", "may", "jun", "jul", "aug", "sep", "oct", "nov", "dec"]

/-- C-locale full month names. -/
def fMonths : List String :=
  ["january", "february", "march", "april", "may", "june", "july", "august",
   "september", "october", "november", "december"]

/-- `f_month` sorted by length descending (stable), the matching order. -/
def fMonthsSorted : List String :=
  ["september", "february", "november", "december", "january", "october",
   "august", "march", "april", "june", "july", "may"]

/-- C-locale `am_pm`. -/
def amPm : List String := ["am", "pm"]

/-- Position of a canonical name in the original (unsorted) list. -/
def idxOfName : List String → List Char → Nat → Option Nat
  | [], _, _ => none
  | n :: ns, s, k => if n.data == s then some k else idxOfName ns s (k + 1)

/-- The optional fraction `(\.\d{1,6})?` of the `%z` regex, greedy. -/
def zFracAlts (cs : List Char) : List (List Char × List Char) :=
  (match cs with
   | '.' :: r =>
     [6, 5, 4, 3, 2, 1].filterMap (fun n =>
       match takeDigits n r with
       | some (raw, rest) => some ('.' :: raw, rest)
       | none => none)
   | _ => []) ++ [([], cs)]

/-- The optional seconds group `(:?[0-5]\d(\.\d{1,6})?)?` of `%z`, greedy
(colon first, then no colon, then absent). -/
def zSecAlts (cs : List Char) : List (List Char × List Char) :=
  ((match cs with
    | ':' :: r =>
      (match takeDigits 2 r with
       | some (ssRaw, r2) =>
         if natOfDigits ssRaw ≤ 59 then
           (zFracAlts r2).map (fun p => (':' :: (ssRaw ++ p.1), p.2))
         else []
       | none => [])
    | _ => []) ++
   (match takeDigits 2 cs with
    | some (ssRaw, r2) =>
      if natOfDigits ssRaw ≤ 59 then (zFracAlts r2).map (fun p => (ssRaw ++ p.1, p.2))
      else []
    | none => [])) ++ [([], cs)]

/-- The alternatives of `%z`
(`[+-]\d\d:?[0-5]\d(:?[0-5]\d(\.\d{1,6})?)?|(?-i:Z)`; the `Z` branch is
case-sensitive). -/
def zAlts (cs : List Char) : List (List Char × List Char) :=
  (match cs with
   | s :: r1 =>
     if s == '+' || s == '-' then
       match takeDigits 2 r1 with
       | some (hhRaw, r2) =>
         let mmPart := fun (colon : List Char) (r : List Char) =>
           match takeDigits 2 r with
           | some (mmRaw, r3) =>
             if natOfDigits mmRaw ≤ 59 then
               (zSecAlts r3).map (fun p => (s :: (hhRaw ++ colon ++ mmRaw ++ p.1), p.2))
             else []
           | none => []
         (match r2 with
          | ':' :: r3 => mmPart [':'] r3
          | _ => []) ++ mmPart [] r2
       | none => []
     else []
   | [] => []) ++
  (match cs with
   | 'Z' :: r => [(['Z'], r)]
   | _ => [])

/-- The regex alternatives of each directive, in `TimeRE`'s alternation
order (so the fold below backtracks exactly as the regex engine does). -/
def dirAlts : Directive → List Char → List (List Char × List Char)
  | Directive.dY, cs => numAlt 4 0 9999 cs
  | Directive.dG, cs => numAlt 4 0 9999 cs
  | Directive.dy, cs => numAlt 2 0 99 cs
  | Directive.dm, cs => numAlt 2 10 12 cs ++ numAlt 2 1 9 cs ++ numAlt 1 1 9 cs
  | Directive.dd, cs =>
    numAlt 2 30 31 cs ++ numAlt 2 10 29 cs ++ numAlt 2 1 9 cs ++ numAlt 1 1 9 cs ++
      spDigAlt cs
  | Directive.dH, cs => numAlt 2 20 23 cs ++ numAlt 2 0 19 cs ++ numAlt 1 0 9 cs
  | Directive.dI, cs => numAlt 2 10 12 cs ++ numAlt 2 1 9 cs ++ numAlt 1 1 9 cs
  | Directive.dM, cs => numAlt 2 0 59 cs ++ numAlt 1 0 9 cs
  | Directive.dS, cs => numAlt 2 60 61 cs ++ numAlt 2 0 59 cs ++ numAlt 1 0 9 cs
  | Directive.dU, cs => numAlt 2 50 53 cs ++ numAlt 2 0 49 cs ++ numAlt 1 0 9 cs
  | Directive.dW, cs => numAlt 2 50 53 cs ++ numAlt 2 0 49 cs ++ numAlt 1 0 9 cs
  | Directive.dV, cs =>
    numAlt 2 50 53 cs ++ numAlt 2 1 9 cs ++ numAlt 2 10 49 cs ++ numAlt 1 0 9 cs
  | Directive.dw, cs => numAlt 1 0 6 cs
  | Directive.du, cs => numAlt 1 1 7 cs
  | Directive.dj, cs =>
    numAlt 3 360 366 cs ++ numAlt 3 300 359 cs ++ numAlt 3 100 299 cs ++
      numAlt 3 10 99 cs ++ numAlt 3 1 9 cs ++ numAlt 2 10 99 cs ++ numAlt 2 1 9 cs ++
      numAlt 1 1 9 cs
  | Directive.df, cs =>
    [6, 5, 4, 3, 2, 1].flatMap (fun n => numAlt n 0 999999 cs)
  | Directive.da, cs => nameAlts aWeekdays cs
  | Directive.dA, cs => nameAlts fWeekdaysSorted cs
  | Directive.db, cs => nameAlts aMonths cs
  | Directive.dB, cs => nameAlts fMonthsSorted cs
  | Directive.dp, cs => nameAlts amPm cs
  | Directive.dz, cs => zAlts cs

/-- Length of the whitespace run at the front of the input. -/
def wsRun : List Char → Nat
  | [] => 0
  | c :: rest => if pyWs c then wsRun rest + 1 else 0

/-- The matches of `\s+`, longest first (greedy with backtracking). -/
def wsAlts (cs : List Char) : List (List Char) :=
  (List.range (wsRun cs)).reverse.map (fun k => cs.drop (k + 1))

/-- Run the compiled format over the input with regex-style backtracking,
collecting the matched group of each directive in format order; the whole
input must be consumed (`strptime` raises on unconverted trailing data). -/
def runFmt : List FmtTok → List Char → List (Directive × List Char) →
    Option (List (Directive × List Char))
  | [], [], acc => some acc
  | [], _ :: _, _ => none
  | FmtTok.lit c :: ts, cs, acc =>
    match cs with
    | [] => none
    | x :: rest => if lowerChar x == lowerChar c then runFmt ts rest acc else none
  | FmtTok.ws :: ts, cs, acc =>
    (wsAlts cs).foldr (fun rest r => (runFmt ts rest acc).orElse (fun _ => r)) none
  | FmtTok.dir d :: ts, cs, acc =>
    (dirAlts d cs).foldr
      (fun rc r => (runFmt ts rc.2 (acc ++ [(d, rc.1)])).orElse (fun _ => r)) none

/-- The variables `_strptime` fills from the matched groups (only the ones
that can influence the resulting calendar date or make the call raise). -/
structure TT where
  iso_year : Option Nat
  year : Option Nat
  month : Nat
  day : Nat
  second : Nat
  weekday : Option Nat
  julian : Option Nat
  week_of_year : Option Nat
  week_starts_Mon : Bool
  iso_week : Option Nat
  tzSeconds : Option Int

/-- The state before any group is processed (`month = day = 1`). -/
def TT.init : TT := TT.mk none none 1 1 0 none none none false none none

/-- The UTC-offset value of a matched `%z` group, in seconds; `none`
models the `ValueError` for inconsistent use of `:` (and the failing
`int(":…")` of the no-colon form followed by a colon). The magnitude
bound is checked in `finishTT`. -/
def zToSeconds (raw : List Char) : Option Int :=
  if raw == ['Z'] then some 0
  else
    match raw with
    | s :: h1 :: h2 :: rest =>
      let hh := natOfDigits [h1, h2]
      let signed := fun (total : Nat) =>
        some (if s == '-' then -(total : Int) else (total : Int))
      match rest with
      | ':' :: m1 :: m2 :: rest2 =>
        let mm := natOfDigits [m1, m2]
        match rest2 with
        | [] => signed (hh * 3600 + mm * 60)
        | ':' :: s1 :: s2 :: _ => signed (hh * 3600 + mm * 60 + natOfDigits [s1, s2])
        | _ => none
      | m1 :: m2 :: rest2 =>
        let mm := natOfDigits [m1, m2]
        match rest2 with
        | [] => signed (hh * 3600 + mm * 60)
        | ':' :: _ => none
        | s1 :: s2 :: _ => signed (hh * 3600 + mm * 60 + natOfDigits [s1, s2])
        | _ => none
      | _ => none
    | _ => none

/-- Process one matched group, mirroring the `group_key` dispatch of
`_strptime` (hour, minute and fraction groups cannot influence the date or
raise, and are skipped). -/
def convGroup (tt : TT) (g : Directive × List Char) : Option TT :=
  match g.1 with
  | Directive.dy =>
    let v := natOfDigits g.2
    some { tt with year := some (if v ≤ 68 then 2000 + v else 1900 + v) }
  | Directive.dY => some { tt with year := some (natOfDigits g.2) }
  | Directive.dG => some { tt with iso_year := some (natOfDigits g.2) }
  | Directive.dm => some { tt with month := natOfDigits g.2 }
  | Directive.dB => (idxOfName fMonths g.2 0).map (fun i => { tt with month := i + 1 })
  | Directive.db => (idxOfName aMonths g.2 0).map (fun i => { tt with month := i + 1 })
  | Directive.dd => some { tt with day := natOfDigits (g.2.filter isDig) }
  | Directive.dH => some tt
  | Directive.dI => some tt
  | Directive.dM => some tt
  | Directive.df => some tt
  | Directive.dp => some tt
  | Directive.dS => some { tt with second := natOfDigits g.2 }
  | Directive.dA => (idxOfName fWeekdays g.2 0).map (fun i => { tt with weekday := some i })
  | Directive.da => (idxOfName aWeekdays g.2 0).map (fun i => { tt with weekday := some i })
  | Directive.dw =>
    let v := natOfDigits g.2
    some { tt with weekday := some (if v == 0 then 6 else v - 1) }
  | Directive.du => some { tt with weekday := some (natOfDigits g.2 - 1) }
  | Directive.dj => some { tt with julian := some (natOfDigits g.2) }
  | Directive.dU => some { tt with week_of_year := some (natOfDigits g.2), week_starts_Mon := false }
  | Directive.dW => some { tt with week_of_year := some (natOfDigits g.2), week_starts_Mon := true }
  | Directive.dV => some { tt with iso_week := some (natOfDigits g.2) }
  | Directive.dz => (zToSeconds g.2).map (fun off => { tt with tzSeconds := some off })

/-- Process all groups in format order (later groups overwrite, as the
`found_dict` iteration does). -/
def convAll : List (Directive × List Char) → TT → Option TT
  | [], tt => some tt
  | g :: gs, tt =>
    match convGroup tt g with
    | none => none
    | some tt2 => convAll gs tt2

/-- Ordinal of January 1st of `y` (meaningful for `1 ≤ y ≤ 9999`). -/
def janOrd (y : Nat) : Int := (Date.mk y 1 1).toOrdinal

/-- `date(y, m, d)` constructor validity. -/
def dateOk (y m d : Nat) : Bool :=
  1 ≤ y && y ≤ 9999 && 1 ≤ m && m ≤ 12 && 1 ≤ d && d ≤ daysInMonth y m

/-- Weekday (Monday = 0) of an ordinal; 0001-01-01 was a Monday. -/
def weekdayMon (o : Int) : Nat := ((o - minDatetimeOrdinal) % 7).toNat

/-- `_calc_julian_from_U_or_W`; `none` models the `ValueError` of
`date(year, 1, 1)` for a year outside 1..9999. -/
def calcUW (year week weekday : Nat) (startsMon : Bool) : Option Int :=
  if 1 ≤ year && year ≤ 9999 then
    let fw := weekdayMon (janOrd year)
    let fw2 := if startsMon then fw else (fw + 1) % 7
    let dw2 := if startsMon then weekday else (weekday + 1) % 7
    if week == 0 then some (1 + (dw2 : Int) - (fw2 : Int))
    else some (1 + (((7 - fw2) % 7 : Nat) : Int) + 7 * ((week : Int) - 1) + (dw2 : Int))
  else none

/-- `_calc_julian_from_V` (ISO year, week and weekday to a year and a
day-of-year); `none` models the `ValueError` of the `date` constructors it
calls (ISO year outside 1..9999, or the decrement reaching year 0). -/
def calcV (isoYear isoWeek isoWeekday : Nat) : Option (Nat × Int) :=
  if 1 ≤ isoYear && isoYear ≤ 9999 then
    let corr : Int := (weekdayMon ((Date.mk isoYear 1 4).toOrdinal) : Int) + 1 + 3
    let ord : Int := (isoWeek : Int) * 7 + (isoWeekday : Int) - corr
    if ord < 1 then
      if 2 ≤ isoYear then some (isoYear - 1, ord + (janOrd isoYear - janOrd (isoYear - 1)))
      else none
    else some (isoYear, ord)
  else none

/-- The tail of `_strptime` plus the `datetime` construction: ambiguity
checks for `%G`/`%V`, the missing-year defaults with the leap-year fix,
the julian/week-of-year calculations, `date`/`fromordinal` validity, the
second-range check of the `datetime` constructor (a `%S` leap second 60/61
passes the regex but `datetime` rejects it), and the `timezone` bound on a
`%z` offset (strictly less than 24 hours). -/
def finishTT (tt : TT) : Option Date :=
  let bad1 := tt.year.isNone && tt.iso_year.isSome &&
    (tt.iso_week.isNone || tt.weekday.isNone || tt.julian.isSome)
  let bad2 := !(tt.year.isNone && tt.iso_year.isSome) &&
    tt.week_of_year.isNone && tt.iso_week.isSome
  let tzBad :=
    match tt.tzSeconds with
    | some off => decide (off ≤ -86400) || decide (86400 ≤ off)
    | none => false
  if bad1 || bad2 || tzBad || decide (59 < tt.second) then none
  else
    let leapFix := tt.year.isNone && tt.month == 2 && tt.day == 29
    let year0 : Nat :=
      match tt.year with
      | some y => y
      | none => if leapFix then 1904 else 1900
    let stage : Option (Nat × Option Int) :=
      match tt.julian, tt.weekday with
      | none, some wd =>
        (match tt.week_of_year with
         | some week =>
           (match calcUW year0 week wd tt.week_starts_Mon with
            | some j => some (year0, some j)
            | none => none)
         | none =>
           (match tt.iso_year, tt.iso_week with
            | some iy, some iw =>
              (match calcV iy iw (wd + 1) with
               | some (y2, j) => some (y2, some j)
               | none => none)
            | _, _ => some (year0, none)))
      | j, _ => some (year0, j.map (fun n => (n : Int)))
    match stage with
    | none => none
    | some (year1, julian1) =>
      let adjusted : Nat × Option Int :=
        match julian1 with
        | some j =>
          if j ≤ 0 then (year1 - 1, some (j + (if isLeap (year1 - 1) then 366 else 365)))
          else (year1, some j)
        | none => (year1, none)
      match adjusted.2 with
      | none =>
        if dateOk adjusted.1 tt.month tt.day then
          let fy := if leapFix then 1900 else adjusted.1
          if dateOk fy tt.month tt.day then some (Date.mk fy tt.month tt.day) else none
        else none
      | some j =>
        if 1 ≤ adjusted.1 && adjusted.1 ≤ 9999 then
          let o := (j - 1) + janOrd adjusted.1
          if minDatetimeOrdinal ≤ o ∧ o ≤ maxDatetimeOrdinal then
            let d := fromOrdinal o
            let fy := if leapFix then 1900 else d.year
            if dateOk fy d.month d.day then some (Date.mk fy d.month d.day) else none
          else none
        else none

/-- `datetime.strptime(s, fmt)` under the C locale: `none` models the
raised exception (`ValueError`, or `re.error` for a repeated directive).
For formats outside the modeled fragment (`fmtModeled fmt.data = false`,
i.e. formats using `%Z`) the value of this function is not meaningful and
no theorem relies on it. -/
def strptime (s fmt : String) : Option Date :=
  match compileFormat fmt.data with
  | none => none
  | some toks =>
    match runFmt toks s.data [] with
    | none => none
    | some groups =>
      match convAll groups TT.init with
      | none => none
      | some tt => finishTT tt

/-! ### Numeric values and `np.around`

Cell values are embedded as exact rationals (numbers) or strings
(timestamps and other non-numeric data). `np.around(x, p)` is
scale-by-`10^p`, round-half-to-even (`np.rint`), divide; `astype(float)`
on non-numeric data raises. -/

/-- A cell value of the dataframe. -/
inductive Val where
  | num (q : Rat)
  | str (s : String)
deriving DecidableEq

/-- `np.rint`: round half to even. -/
def rint (q : Rat) : Int :=
  let f : Int := ⌊q⌋
  if q - f < 1 / 2 then f
  else if (1 / 2 : Rat) < q - f then f + 1
  else if f % 2 = 0 then f else f + 1

/-- `np.around(q, p)`. -/
def around (q : Rat) (p : Nat) : Rat := ((rint (q * 10 ^ p) : Int) : Rat) / 10 ^ p

/-- `astype(float)` of one cell: numbers pass through, non-numeric data
raises (the timestamps stored in these frames do not parse as floats). -/
def Val.astypeFloat : Val → Option Rat
  | Val.num q => some q
  | Val.str _ => none

/-- Rounding one cell for display: `np.around(cell.astype(float), p)`. -/
def roundValF (p : Nat) (v : Val) : Option Val :=
  (v.astypeFloat).map (fun q => Val.num (around q p))

/-- Effectful map over a list, stopping at the first failure: the loop
bodies raise and the exception propagates. -/
def mapOpt (f : α → Option β) : List α → Option (List β)
  | [] => some []
  | a :: as =>
    match f a with
    | none => none
    | some b => (mapOpt f as).map (fun bs => b :: bs)

/-- Rounding a whole row for display. -/
def aroundRow (p : Nat) (row : List Val) : Option (List Val) :=
  mapOpt (roundValF p) row

/-! ### The dataframe of `gen_plotly_dict` -/

/-- A pandas DataFrame: named columns, rows of cells (row `k` cell `j`
belongs to column `j`). -/
structure DataFrame where
  columns : List String
  rows : List (List Val)
deriving DecidableEq

/-- Index of the first element satisfying `p`
(`[i for i, item in enumerate(xs) if p(item)][0]`, `none` when the
comprehension is empty and `[0]` raises `IndexError`). -/
def firstIdxWhere (p : α → Bool) : List α → Option Nat
  | [] => none
  | a :: as => if p a then some 0 else (firstIdxWhere p as).map (fun i => i + 1)

/-- `del xs[i]`: remove position `i` (the calls below always have `i` in
range). -/
def delAt : List α → Nat → List α
  | [], _ => []
  | _ :: as, 0 => as
  | a :: as, n + 1 => a :: delAt as n

/-- `df[df[dropdown_tag] == selection].drop(dropdown_tag, axis=1).values`
with `j` the position of the dropdown column: the rows whose dropdown cell
equals the selection, each with that cell removed. -/
def selectedValues (df : DataFrame) (j : Nat) (selection : Val) : List (List Val) :=
  (df.rows.filter (fun row => row.get? j == some selection)).map (fun row => delAt row j)

/-- One element of `dropdown_ar`: the plotted values `y`, the display
values `text`, and the selection `label` of
`dict(args=[...], label=selection, method="restyle")`. -/
structure DropdownEntry where
  y : List (List Val)
  text : List (List Val)
  label : Val
deriving DecidableEq

/-- One iteration of the `gen_plotly_dict` loop: slice, optionally round
for display (raising on non-numeric data), build the dict. -/
def genEntry (df : DataFrame) (j : Nat) (precision : Option Nat) (selection : Val) :
    Option DropdownEntry :=
  match precision with
  | some p =>
    (mapOpt (aroundRow p) (selectedValues df j selection)).map
      (fun text => DropdownEntry.mk (selectedValues df j selection) text selection)
  | none =>
    some (DropdownEntry.mk (selectedValues df j selection)
      (selectedValues df j selection) selection)

/-- `gen_plotly_dict(selection_list, df, dropdown_tag, precision)`:
`none` models the `KeyError` on a missing dropdown column and the
`ValueError` of `astype(float)` on non-numeric data. -/
def gen_plotly_dict (selection_list : List Val) (df : DataFrame) (dropdown_tag : String)
    (precision : Option Nat) : Option (List DropdownEntry) :=
  match firstIdxWhere (fun c => c == dropdown_tag) df.columns with
  | none => none
  | some j => mapOpt (genEntry df j precision) selection_list

/-! ### `preprocess_data` -/

/-- Python substring test on character lists (`needle in hay`). -/
def containsSub (needle : List Char) : List Char → Bool
  | [] => needle.isEmpty
  | a :: rest => needle.isPrefixOf (a :: rest) || containsSub needle rest

/-- Python `needle in hay` on strings. -/
def pyIn (needle hay : String) : Bool := containsSub needle.data hay.data

/-- The observable outcome of a successful `preprocess_data` call: the
three returned sequences, plus the final state of the label list the
caller passed in (the function executes `del x_labels[indices]` on the
callers list itself, and returns `list(x_labels)`, a copy of it). -/
structure PreprocessResult where
  x_labels : List String
  y_values : List Val
  disp_values : List Val
  caller_x_labels : List String
deriving DecidableEq

/-- `preprocess_data(initial_data, x_labels, dropdown_tag, precision)`.
`y_values = list(initial_data)` copies; the index of the first label with
`dropdown_tag in item` (substring test) is removed from the label list
in place and from the copied value list; display values are optionally
rounded. `none` models the `IndexError` of `[0]` on an empty
comprehension, the `IndexError` of `del y_values[indices]` when
`initial_data` is shorter than the found index, and the `ValueError` of
`astype(float)` on non-numeric data. -/
def preprocess_data (initial_data : List Val) (x_labels : List String)
    (dropdown_tag : String) (precision : Option Nat) : Option PreprocessResult :=
  let y_values := initial_data
  match firstIdxWhere (fun item => pyIn dropdown_tag item) x_labels with
  | none => none
  | some indices =>
    if indices < y_values.length then
      match precision with
      | some p =>
        (mapOpt (roundValF p) (delAt y_values indices)).map
          (fun disp => PreprocessResult.mk (delAt x_labels indices)
            (delAt y_values indices) disp (delAt x_labels indices))
      | none =>
        some (PreprocessResult.mk (delAt x_labels indices) (delAt y_values indices)
          (delAt y_values indices) (delAt x_labels indices))
    else none

/-! ### `extract_daterange` -/

/-- `extract_daterange(df, start_date, end_date)` on a date-indexed frame:
build the boolean mask `(df.index > start_date) & (df.index <= end_date)`
and select the rows where it is true (`df.loc[mask]`). Indices are
`datetime` ordinals. -/
def extract_daterange (df : List (Int × α)) (start_date end_date : Int) : List (Int × α) :=
  let mask := df.map (fun r => decide (start_date < r.1) && decide (r.1 ≤ end_date))
  (df.zip mask).filterMap (fun p => if p.2 then some p.1 else none)

/-! ### `create_date_ranges` -/

/-- All three computed window boundaries around an anchor ordinal `o` with
offset `r` stay within `datetime`'s supported range. `datetime ± timedelta`
raises `OverflowError` as soon as a result leaves that range, and a
`timedelta(days = r)` whose construction itself overflows
(`|r| > 999 999 999`) also pushes every anchor out of the range, so this
condition characterises exactly the calls of `create_date_ranges` that do
not raise after a successful parse. -/
def windowInRange (o r : Int) : Prop :=
  minDatetimeOrdinal ≤ o - r ∧ o - r ≤ maxDatetimeOrdinal ∧
  minDatetimeOrdinal ≤ o + r ∧ o + r ≤ maxDatetimeOrdinal ∧
  minDatetimeOrdinal ≤ o + r * 2 ∧ o + r * 2 ≤ maxDatetimeOrdinal

instance (o r : Int) : Decidable (windowInRange o r) := by
  unfold windowInRange
  infer_instance

/-- `create_date_ranges(target_date, date_range)`: parse the anchor under
the fixed format `%Y-%m-%d` (`none` models the `ValueError`) and return
the ordinals of `anchor - range`, `anchor`, `anchor + range`,
`anchor + range*2` (`timedelta(days=n)` adds `n` to the ordinal); `none`
also models the `OverflowError` when one of the three computed dates
leaves `datetime`'s supported range. -/
def create_date_ranges (target_date : String) (date_range : Int) :
    Option (Int × Int × Int × Int) :=
  match strptime target_date "%Y-%m-%d" with
  | none => none
  | some f_date =>
    if windowInRange f_date.toOrdinal date_range then
      some (f_date.toOrdinal - date_range, f_date.toOrdinal,
        f_date.toOrdinal + date_range, f_date.toOrdinal + date_range * 2)
    else none

/-! ### `get_dates` -/

/-- A date-indexed frame for the comparison pipeline: each row is its
index ordinal and a valuation of column names; `none` is a missing value
(`NaN`). -/
abbrev CompareFrame := List (Int × (String → Option Rat))

/-- `s[s >= c]` on a series: a `NaN` compares false and is dropped. -/
def seriesGe (s : List (Int × Option Rat)) (c : Rat) : List (Int × Option Rat) :=
  s.filter (fun r =>
    match r.2 with
    | some x => decide (c ≤ x)
    | none => false)

/-- `s.dropna()`: keep the rows with a present value. -/
def dropna (s : List (Int × Option Rat)) : List (Int × Rat) :=
  s.filterMap (fun r => (r.2).map (fun x => (r.1, x)))

/-- The data preparation of `plot_compare_timeframes(df, date1, date2,
tag, filter_dict, ...)`: for each anchor compute the window quadruple,
extract the `(start_2, end_2]` slice, select the `tag` column, keep the
values `>= filter_dict[tag]`, drop missing values, and return the two
series handed to `plot_change`. -/
def plot_compare_timeframes (df : CompareFrame) (date1 date2 tag : String)
    (filter_dict : String → Rat) (date_range : Int) :
    Option (List (Int × Rat) × List (Int × Rat)) :=
  match create_date_ranges date1 date_range with
  | none => none
  | some date_ar1 =>
    let date_df_1 := extract_daterange df date_ar1.2.2.1 date_ar1.2.2.2
    match create_date_ranges date2 date_range with
    | none => none
    | some date_ar2 =>
      let date_df_2 := extract_daterange df date_ar2.2.2.1 date_ar2.2.2.2
      let b_tag_df := seriesGe (date_df_1.map (fun r => (r.1, r.2 tag))) (filter_dict tag)
      let a_tag_df := seriesGe (date_df_2.map (fun r => (r.1, r.2 tag))) (filter_dict tag)
      some (dropna b_tag_df, dropna a_tag_df)

/-- Specification-side description of one branch of the comparison
pipeline: the rows of the source frame whose index lies in `(s, e]`,
whose `tag` value is present, and whose value is at least the threshold. -/
def afterWindowSeries (df : CompareFrame) (tag : String) (thr : Rat) (s e : Int) :
    List (Int × Rat) :=
  df.filterMap (fun r =>
    if s < r.1 ∧ r.1 ≤ e then
      match r.2 tag with
      | some x => if thr ≤ x then some (r.1, x) else none
      | none => none
    else none)

/-! ### Helper lemmas -/

theorem rint_lt_half (q : Rat) (f : Int) (h1 : (f : Rat) ≤ q) (h2 : q < f + 1 / 2) :
    rint q = f := by
  have hq : q < f + 1 := by linarith
  have hf : ⌊q⌋ = f := Int.floor_eq_iff.mpr ⟨h1, hq⟩
  simp only [rint, hf]
  rw [if_pos (by linarith)]

theorem rint_half_lt (q : Rat) (f : Int) (h1 : (f : Rat) + 1 / 2 < q) (h2 : q < f + 1) :
    rint q = f + 1 := by
  have h0 : (f : Rat) ≤ q := by linarith
  have hf : ⌊q⌋ = f := Int.floor_eq_iff.mpr ⟨h0, h2⟩
  simp only [rint, hf]
  rw [if_neg (by linarith), if_pos (by linarith)]

theorem mapOpt_length {α β : Type} {f : α → Option β} {l : List α} {out : List β}
    (h : mapOpt f l = some out) : out.length = l.length := by
  induction l generalizing out with
  | nil =>
    simp only [mapOpt] at h
    cases h
    rfl
  | cons a as ih =>
    simp only [mapOpt] at h
    cases hfa : f a with
    | none => rw [hfa] at h; exact absurd h (by simp)
    | some b =>
      rw [hfa] at h
      cases hrec : mapOpt f as with
      | none => rw [hrec] at h; exact absurd h (by simp)
      | some bs =>
        rw [hrec] at h
        simp only [Option.map_some'] at h
        cases h
        simp [ih hrec]

theorem mapOpt_get {α β : Type} {f : α → Option β} {l : List α} {out : List β}
    (h : mapOpt f l = some out) :
    ∀ i (h1 : i < out.length) (h2 : i < l.length),
      f (l.get ⟨i, h2⟩) = some (out.get ⟨i, h1⟩) := by
  induction l generalizing out with
  | nil => intro i h1 h2; exact absurd h2 (by simp)
  | cons a as ih =>
    simp only [mapOpt] at h
    cases hfa : f a with
    | none => rw [hfa] at h; exact absurd h (by simp)
    | some b =>
      rw [hfa] at h
      cases hrec : mapOpt f as with
      | none => rw [hrec] at h; exact absurd h (by simp)
      | some bs =>
        rw [hrec] at h
        simp only [Option.map_some'] at h
        cases h
        intro i h1 h2
        cases i with
        | zero => simpa using hfa
        | succ n => exact ih hrec n (by simpa using h1) (by simpa using h2)

theorem mapOpt_none_of_mem {α β : Type} {f : α → Option β} {l : List α} {a : α}
    (ha : a ∈ l) (hf : f a = none) : mapOpt f l = none := by
  induction l with
  | nil => cases ha
  | cons b bs ih =>
    rcases List.mem_cons.mp ha with h | h
    · subst h; simp [mapOpt, hf]
    · simp only [mapOpt]
      cases hfb : f b with
      | none => rfl
      | some c => simp [ih h]

theorem mapOpt_some_of_all {α β : Type} {f : α → Option β} {l : List α}
    (h : ∀ a ∈ l, (f a).isSome = true) : ∃ out, mapOpt f l = some out := by
  induction l with
  | nil => exact ⟨[], rfl⟩
  | cons a as ih =>
    obtain ⟨b, hb⟩ := Option.isSome_iff_exists.mp (h a (List.mem_cons_self a as))
    obtain ⟨out, hout⟩ := ih (fun x hx => h x (List.mem_cons_of_mem _ hx))
    exact ⟨b :: out, by simp [mapOpt, hb, hout]⟩

theorem firstIdxWhere_some {α : Type} {p : α → Bool} {l : List α} {i : Nat}
    (h : firstIdxWhere p l = some i) :
    ∃ hi : i < l.length, p (l.get ⟨i, hi⟩) = true ∧
      ∀ k (hk : k < l.length), k < i → p (l.get ⟨k, hk⟩) = false := by
  induction l generalizing i with
  | nil => exact absurd h (by simp [firstIdxWhere])
  | cons a as ih =>
    simp only [firstIdxWhere] at h
    by_cases hpa : p a
    · rw [if_pos hpa] at h
      cases h
      exact ⟨by simp, hpa, fun k hk hki => absurd hki (by omega)⟩
    · rw [if_neg hpa] at h
      cases hrec : firstIdxWhere p as with
      | none => rw [hrec] at h; exact absurd h (by simp)
      | some j =>
        rw [hrec] at h
        simp only [Option.map_some'] at h
        cases h
        obtain ⟨hj, hpj, hmin⟩ := ih hrec
        refine ⟨by simpa using Nat.succ_lt_succ hj, by simpa using hpj, ?_⟩
        intro k hk hki
        cases k with
        | zero => simpa using eq_false_of_ne_true (by simpa using hpa)
        | succ m => exact hmin m (by simpa using hk) (by omega)

theorem delAt_length {α : Type} : ∀ {l : List α} {i : Nat},
    i < l.length → (delAt l i).length + 1 = l.length
  | _ :: as, 0, _ => by simp [delAt]
  | a :: as, n + 1, h => by
    have := delAt_length (l := as) (i := n) (by simpa using h)
    simp [delAt]
    omega

theorem delAt_ne {α : Type} {l : List α} {i : Nat} (h : i < l.length) : delAt l i ≠ l := by
  intro hEq
  have := delAt_length h
  rw [hEq] at this
  omega

theorem filter_eq_nil_of_false {α : Type} {p : α → Bool} {l : List α}
    (h : ∀ a ∈ l, p a = false) : l.filter p = [] := by
  induction l with
  | nil => rfl
  | cons a as ih =>
    rw [List.filter_cons, h a (List.mem_cons_self a as)]
    exact ih (fun x hx => h x (List.mem_cons_of_mem _ hx))

theorem genEntry_shape {df : DataFrame} {j : Nat} {prec : Option Nat} {s : Val}
    {e : DropdownEntry} (h : genEntry df j prec s = some e) :
    e.label = s ∧ e.y = selectedValues df j s ∧ (prec = none → e.text = e.y) := by
  cases prec with
  | none =>
    simp only [genEntry] at h
    cases h
    exact ⟨rfl, rfl, fun _ => rfl⟩
  | some p =>
    simp only [genEntry] at h
    cases ht : mapOpt (aroundRow p) (selectedValues df j s) with
    | none => rw [ht] at h; exact absurd h (by simp)
    | some text =>
      rw [ht] at h
      simp only [Option.map_some'] at h
      cases h
      exact ⟨rfl, rfl, fun hn => by cases hn⟩

theorem extract_eq_filter {α : Type} (df : List (Int × α)) (s e : Int) :
    extract_daterange df s e =
      df.filter (fun r => decide (s < r.1) && decide (r.1 ≤ e)) := by
  induction df with
  | nil => rfl
  | cons a as ih =>
    simp only [extract_daterange] at ih ⊢
    simp only [List.map_cons, List.zip_cons_cons, List.filterMap_cons, List.filter_cons]
    by_cases h1 : s < a.1 <;> by_cases h2 : a.1 ≤ e <;> simp [h1, h2, ih]

theorem compare_pipeline (df : CompareFrame) (tag : String) (c : Rat) (s e : Int) :
    dropna (seriesGe ((extract_daterange df s e).map (fun r => (r.1, r.2 tag))) c) =
      afterWindowSeries df tag c s e := by
  rw [extract_eq_filter]
  induction df with
  | nil => rfl
  | cons a as ih =>
    simp only [seriesGe, dropna, afterWindowSeries] at ih ⊢
    simp only [List.filter_cons, List.filterMap_cons]
    by_cases h1 : s < a.1 <;> by_cases h2 : a.1 ≤ e
    · cases hv : a.2 tag with
      | none => simp [h1, h2, hv, List.filter_cons, List.filterMap_cons, ih]
      | some x =>
        by_cases hc : c ≤ x <;>
          simp [h1, h2, hv, hc, List.filter_cons, List.filterMap_cons, ih]
    · simp [h1, h2, ih]
    · simp [h1, h2, ih]
    · simp [h1, h2, ih]

theorem isPrefixOf_self {l : List Char} : l.isPrefixOf l = true := by
  induction l with
  | nil => rfl
  | cons a as ih => simp [List.isPrefixOf, ih]

theorem pyIn_self (s : String) : pyIn s s = true := by
  unfold pyIn
  cases h : s.data with
  | nil => simp [containsSub, h]
  | cons a rest => simp only [containsSub, isPrefixOf_self, Bool.true_or]

theorem firstIdxWhere_eq_none {α : Type} {p : α → Bool} {l : List α}
    (h : firstIdxWhere p l = none) : ∀ a ∈ l, p a = false := by
  induction l with
  | nil => intro a ha; cases ha
  | cons a as ih =>
    simp only [firstIdxWhere] at h
    by_cases hpa : p a
    · rw [if_pos hpa] at h; exact absurd h (by simp)
    · rw [if_neg hpa] at h
      intro x hx
      rcases List.mem_cons.mp hx with hx | hx
      · subst hx; exact eq_false_of_ne_true hpa
      · exact ih (Option.map_eq_none'.mp h) x hx

theorem preprocess_some_idx {v : List Val} {labels : List String} {tag : String}
    {prec : Option Nat} {res : PreprocessResult}
    (h : preprocess_data v labels tag prec = some res) :
    ∃ i, firstIdxWhere (fun item => pyIn tag item) labels = some i := by
  simp only [preprocess_data] at h
  cases hidx : firstIdxWhere (fun item => pyIn tag item) labels with
  | none => rw [hidx] at h; exact absurd h (by simp)
  | some i => exact ⟨i, rfl⟩

theorem preprocess_shape {v : List Val} {labels : List String} {tag : String}
    {prec : Option Nat} {i : Nat} {res : PreprocessResult}
    (hidx : firstIdxWhere (fun item => pyIn tag item) labels = some i)
    (hres : preprocess_data v labels tag prec = some res) :
    res.x_labels = delAt labels i ∧ res.y_values = delAt v i ∧
    res.caller_x_labels = delAt labels i ∧ i < v.length ∧
    res.disp_values.length = res.y_values.length ∧
    (prec = none → res.disp_values = res.y_values) ∧
    (∀ p, prec = some p → mapOpt (roundValF p) res.y_values = some res.disp_values) := by
  simp only [preprocess_data, hidx] at hres
  by_cases hlt : i < v.length
  · rw [if_pos hlt] at hres
    cases prec with
    | none =>
      dsimp only at hres
      simp only [Option.some.injEq] at hres
      subst hres
      exact ⟨rfl, rfl, rfl, hlt, rfl, fun _ => rfl, fun p hp => (by cases hp)⟩
    | some p =>
      dsimp only at hres
      cases hm : mapOpt (roundValF p) (delAt v i) with
      | none => rw [hm] at hres; exact absurd hres (by simp)
      | some disp =>
        rw [hm] at hres
        simp only [Option.map_some', Option.some.injEq] at hres
        subst hres
        refine ⟨rfl, rfl, rfl, hlt, mapOpt_length hm, fun hn => (by cases hn), ?_⟩
        intro p2 hp
        cases hp
        exact hm
  · rw [if_neg hlt] at hres
    exact absurd hres (by simp)

/-! ### Claim theorems -/

/-- C1: for every table and pair of dates `start`, `end`, `extract_daterange`
returns exactly the rows whose index `i` satisfies `start < i ≤ end` (the
boolean-mask characterisation, the membership characterisation, exclusion of
an index equal to `start`, inclusion of an index equal to `end`), and the
result is a subsequence of the table, which itself is untouched. -/
theorem extract_daterange_spec {α : Type} (df : List (Int × α)) (s e : Int) :
    extract_daterange df s e = df.filter (fun r => decide (s < r.1) && decide (r.1 ≤ e)) ∧
    (∀ r : Int × α, r ∈ extract_daterange df s e ↔ r ∈ df ∧ s < r.1 ∧ r.1 ≤ e) ∧
    (∀ r : Int × α, r ∈ df → r.1 = s → r ∉ extract_daterange df s e) ∧
    (∀ r : Int × α, r ∈ df → r.1 = e → s < e → r ∈ extract_daterange df s e) ∧
    (extract_daterange df s e).Sublist df := by
  have hf := extract_eq_filter df s e
  have hmem : ∀ r : Int × α, r ∈ extract_daterange df s e ↔ r ∈ df ∧ s < r.1 ∧ r.1 ≤ e := by
    intro r
    rw [hf, List.mem_filter]
    simp
  refine ⟨hf, hmem, ?_, ?_, ?_⟩
  · intro r hr hs hmem2
    rcases (hmem r).mp hmem2 with ⟨_, hlt, _⟩
    rw [hs] at hlt
    exact lt_irrefl _ hlt
  · intro r hr he hse
    exact (hmem r).mpr ⟨hr, by rw [he]; exact hse, le_of_eq he⟩
  · rw [hf]
    exact List.filter_sublist _

/-- C1 witness: on the concrete table `[(0, r0), (1, r1), (2, r2), (3, r3)]`
with bounds `(0, 2]`, the row indexed `0` (the lower bound) is excluded and
the row indexed `2` (the upper bound) is included. -/
theorem extract_daterange_spec_witness :
    (0, "r0") ∉ extract_daterange [(0, "r0"), (1, "r1"), (2, "r2"), (3, "r3")] 0 2 ∧
    (2, "r2") ∈ extract_daterange [(0, "r0"), (1, "r1"), (2, "r2"), (3, "r3")] 0 2 :=
  ⟨(extract_daterange_spec [(0, "r0"), (1, "r1"), (2, "r2"), (3, "r3")] 0 2).2.2.1
      (0, "r0") (by decide) rfl,
    (extract_daterange_spec [(0, "r0"), (1, "r1"), (2, "r2"), (3, "r3")] 0 2).2.2.2.1
      (2, "r2") (by decide) rfl (by decide)⟩

/-- C9: whenever both anchors parse, `plot_compare_timeframes` hands the
renderer exactly, for each anchor, the rows of the source frame whose index
lies in the after sub-window `(start_2, end_2]` of that anchor's quadruple,
whose `tag` value is present (not missing), and whose value is at least the
per-field threshold `filter_dict tag`. -/
theorem plot_compare_timeframes_spec :
    ∀ (df : CompareFrame) (d1 d2 tag : String) (fd : String → Rat) (rg : Int)
      (q1 q2 : Int × Int × Int × Int),
      create_date_ranges d1 rg = some q1 →
      create_date_ranges d2 rg = some q2 →
      plot_compare_timeframes df d1 d2 tag fd rg =
        some (afterWindowSeries df tag (fd tag) q1.2.2.1 q1.2.2.2,
          afterWindowSeries df tag (fd tag) q2.2.2.1 q2.2.2.2) := by
  intro df d1 d2 tag fd rg q1 q2 h1 h2
  simp only [plot_compare_timeframes, h1, h2]
  rw [compare_pipeline, compare_pipeline]

/-- C9 witness: a one-row frame whose index lies in the after sub-window of
anchor `2021-06-15` with offset 10, both anchors equal; the pipeline hands
the renderer the two sub-window selections. -/
theorem plot_compare_timeframes_spec_witness :
    plot_compare_timeframes [((Date.mk 2021 6 28).toOrdinal, fun _ => some 5)]
        "2021-06-15" "2021-06-15" "x" (fun _ => 0) 10 =
      some (afterWindowSeries [((Date.mk 2021 6 28).toOrdinal, fun _ => some 5)] "x" 0
          (Date.mk 2021 6 25).toOrdinal (Date.mk 2021 7 5).toOrdinal,
        afterWindowSeries [((Date.mk 2021 6 28).toOrdinal, fun _ => some 5)] "x" 0
          (Date.mk 2021 6 25).toOrdinal (Date.mk 2021 7 5).toOrdinal) :=
  plot_compare_timeframes_spec [((Date.mk 2021 6 28).toOrdinal, fun _ => some 5)]
    "2021-06-15" "2021-06-15" "x" (fun _ => 0) 10
    ((Date.mk 2021 6 5).toOrdinal, (Date.mk 2021 6 15).toOrdinal,
      (Date.mk 2021 6 25).toOrdinal, (Date.mk 2021 7 5).toOrdinal)
    ((Date.mk 2021 6 5).toOrdinal, (Date.mk 2021 6 15).toOrdinal,
      (Date.mk 2021 6 25).toOrdinal, (Date.mk 2021 7 5).toOrdinal)
    (by decide) (by decide)

/-- C2 counterexample: with labels `["xdate", "date"]` and dropdown tag
`"date"`, the first label EQUAL to the tag is at position 1, and removing
that position would return labels `["xdate"]`; the code instead searches
with the Python substring test `dropdown_tag in item`, matches `"xdate"`
at position 0, and returns labels `["date"]`. -/
theorem preprocess_data_substring_cex :
    (preprocess_data [Val.num 1, Val.num 2] ["xdate", "date"] "date" none).map
        PreprocessResult.x_labels = some ["date"] ∧
    firstIdxWhere (fun item => item == "date") ["xdate", "date"] = some 1 ∧
    delAt ["xdate", "date"] 1 = ["xdate"] ∧
    (["date"] : List String) ≠ ["xdate"] := by decide

/-- C2 (amended): `preprocess_data` locates the first column name that
CONTAINS the dropdown tag as a substring (not the first one equal to it),
removes exactly that position from both the label list and the value list,
returning aligned sequences; the concrete example of the claim holds as
stated (there the first containing label is `"date"` itself). -/
theorem preprocess_data_first_containing :
    (∀ (v : List Val) (labels : List String) (tag : String) (prec : Option Nat)
        (i : Nat) (res : PreprocessResult),
        firstIdxWhere (fun item => pyIn tag item) labels = some i →
        preprocess_data v labels tag prec = some res →
        res.x_labels = delAt labels i ∧ res.y_values = delAt v i ∧
          res.caller_x_labels = delAt labels i ∧ i < v.length ∧
          res.disp_values.length = res.y_values.length) ∧
    preprocess_data [Val.num 1, Val.num 2, Val.str "2021-01-01"] ["a", "b", "date"]
        "date" none =
      some (PreprocessResult.mk ["a", "b"] [Val.num 1, Val.num 2]
        [Val.num 1, Val.num 2] ["a", "b"]) := by
  refine ⟨?_, rfl⟩
  intro v labels tag prec i res hidx hres
  obtain ⟨h1, h2, h3, h4, h5, -, -⟩ := preprocess_shape hidx hres
  exact ⟨h1, h2, h3, h4, h5⟩

/-- C2 witness: the general removal property applied at labels
`["a", "b", "date"]`, values `[1, 2, "2021-01-01"]`, tag `"date"`,
precision absent; the located position is 2. -/
theorem preprocess_data_first_containing_witness :
    (PreprocessResult.mk ["a", "b"] [Val.num 1, Val.num 2] [Val.num 1, Val.num 2]
          ["a", "b"]).x_labels = delAt ["a", "b", "date"] 2 ∧
    (PreprocessResult.mk ["a", "b"] [Val.num 1, Val.num 2] [Val.num 1, Val.num 2]
          ["a", "b"]).y_values =
        delAt [Val.num 1, Val.num 2, Val.str "2021-01-01"] 2 ∧
    (PreprocessResult.mk ["a", "b"] [Val.num 1, Val.num 2] [Val.num 1, Val.num 2]
          ["a", "b"]).caller_x_labels = delAt ["a", "b", "date"] 2 ∧
    2 < ([Val.num 1, Val.num 2, Val.str "2021-01-01"] : List Val).length ∧
    (PreprocessResult.mk ["a", "b"] [Val.num 1, Val.num 2] [Val.num 1, Val.num 2]
          ["a", "b"]).disp_values.length =
        (PreprocessResult.mk ["a", "b"] [Val.num 1, Val.num 2] [Val.num 1, Val.num 2]
          ["a", "b"]).y_values.length :=
  preprocess_data_first_containing.1 [Val.num 1, Val.num 2, Val.str "2021-01-01"]
    ["a", "b", "date"] "date" none 2
    (PreprocessResult.mk ["a", "b"] [Val.num 1, Val.num 2] [Val.num 1, Val.num 2]
      ["a", "b"])
    (by decide) rfl

/-- C3 counterexample: the claim says the caller's label list is unchanged
after a call; on labels `["a", "b", "date"]` the caller's list after the
call is `["a", "b"]` (the function executes `del x_labels[indices]` on the
list object the caller passed). -/
theorem preprocess_data_mutates_labels_cex :
    (preprocess_data [Val.num 1, Val.num 2, Val.str "2021-01-01"] ["a", "b", "date"]
        "date" none).map PreprocessResult.caller_x_labels = some ["a", "b"] ∧
    some (["a", "b"] : List String) ≠ some ["a", "b", "date"] := by decide

/-- C3 (amended): `preprocess_data` mutates the caller's label list in
place: after every successful call the caller's label list equals the input
list with the located position removed, and is therefore NOT the list the
caller passed in; `initial_data` is only copied (`list(initial_data)`), and
no function mutates the source table (the embedding passes it by value and
only ever filters it). -/
theorem preprocess_data_label_mutation :
    (∀ (v : List Val) (labels : List String) (tag : String) (prec : Option Nat)
        (res : PreprocessResult) (i : Nat),
        preprocess_data v labels tag prec = some res →
        firstIdxWhere (fun item => pyIn tag item) labels = some i →
        res.caller_x_labels = delAt labels i ∧ i < labels.length ∧
          res.caller_x_labels ≠ labels) ∧
    (∀ (v : List Val) (labels : List String) (tag : String) (prec : Option Nat)
        (res : PreprocessResult),
        preprocess_data v labels tag prec = some res →
        firstIdxWhere (fun item => pyIn tag item) labels ≠ none) := by
  constructor
  · intro v labels tag prec res i hres hidx
    obtain ⟨-, -, h3, -, -, -, -⟩ := preprocess_shape hidx hres
    obtain ⟨hi, -, -⟩ := firstIdxWhere_some hidx
    refine ⟨h3, hi, ?_⟩
    rw [h3]
    exact delAt_ne hi
  · intro v labels tag prec res hres hnone
    obtain ⟨i, hidx⟩ := preprocess_some_idx hres
    rw [hidx] at hnone
    exact absurd hnone (by simp)

/-- C3 witness: the mutation property applied at labels
`["a", "b", "date"]`: the caller's list after the call is `["a", "b"]`,
which differs from what was passed. -/
theorem preprocess_data_label_mutation_witness :
    (PreprocessResult.mk ["a", "b"] [Val.num 1, Val.num 2] [Val.num 1, Val.num 2]
          ["a", "b"]).caller_x_labels = delAt ["a", "b", "date"] 2 ∧
    2 < (["a", "b", "date"] : List String).length ∧
    (PreprocessResult.mk ["a", "b"] [Val.num 1, Val.num 2] [Val.num 1, Val.num 2]
          ["a", "b"]).caller_x_labels ≠ ["a", "b", "date"] :=
  preprocess_data_label_mutation.1 [Val.num 1, Val.num 2, Val.str "2021-01-01"]
    ["a", "b", "date"] "date" none
    (PreprocessResult.mk ["a", "b"] [Val.num 1, Val.num 2] [Val.num 1, Val.num 2]
      ["a", "b"])
    2 rfl (by decide)

/-- C7 counterexample: the tag `"date"` is absent from the label list
`["xdate"]` (no label equals it), yet the call succeeds, because the lookup
is a substring test and `"date"` occurs inside `"xdate"`. -/
theorem preprocess_data_absent_tag_cex :
    "date" ∉ ["xdate"] ∧
    (preprocess_data [Val.num 1] ["xdate"] "date" none).isSome = true := by decide

/-- C7 (amended): `preprocess_data` fails when NO label contains the
dropdown tag as a substring; a successful call requires some label to
contain the tag as a substring (not necessarily to equal it); when the tag
is a member of the label list the lookup does succeed. -/
theorem preprocess_data_absent_substring :
    (∀ (v : List Val) (labels : List String) (tag : String) (prec : Option Nat),
        firstIdxWhere (fun item => pyIn tag item) labels = none →
        preprocess_data v labels tag prec = none) ∧
    (∀ (v : List Val) (labels : List String) (tag : String) (prec : Option Nat)
        (res : PreprocessResult), preprocess_data v labels tag prec = some res →
        ∃ i, ∃ hi : i < labels.length, pyIn tag (labels.get ⟨i, hi⟩) = true) ∧
    (∀ (labels : List String) (tag : String), tag ∈ labels →
        firstIdxWhere (fun item => pyIn tag item) labels ≠ none) := by
  refine ⟨?_, ?_, ?_⟩
  · intro v labels tag prec hnone
    simp [preprocess_data, hnone]
  · intro v labels tag prec res hres
    obtain ⟨i, hidx⟩ := preprocess_some_idx hres
    obtain ⟨hi, hp, -⟩ := firstIdxWhere_some hidx
    exact ⟨i, hi, hp⟩
  · intro labels tag hmem hnone
    have := firstIdxWhere_eq_none hnone tag hmem
    rw [pyIn_self] at this
    exact absurd this (by simp)

/-- C7 witness: the failure clause applied at labels `["a"]` and tag
`"date"`: no label contains the tag, and the call fails. -/
theorem preprocess_data_absent_substring_witness :
    preprocess_data [Val.num 1] ["a"] "date" none = none :=
  preprocess_data_absent_substring.1 [Val.num 1] ["a"] "date" none (by decide)

/-- C6: whenever the dropdown column is present (at position `j`) and
`gen_plotly_dict` returns a list, that list has the length of the selector
list, the entry at each position is labelled with the selector value at the
same position, and its plotted values are exactly the rows whose dropdown
cell equals that value with the dropdown cell dropped; with no rounding
requested the call always returns a list. -/
theorem gen_plotly_dict_spec :
    (∀ (sel : List Val) (df : DataFrame) (tag : String) (j : Nat) (prec : Option Nat)
        (l : List DropdownEntry),
        firstIdxWhere (fun c => c == tag) df.columns = some j →
        gen_plotly_dict sel df tag prec = some l →
        l.length = sel.length ∧
          ∀ i (h1 : i < l.length) (h2 : i < sel.length),
            (l.get ⟨i, h1⟩).label = sel.get ⟨i, h2⟩ ∧
            (l.get ⟨i, h1⟩).y = selectedValues df j (sel.get ⟨i, h2⟩)) ∧
    (∀ (sel : List Val) (df : DataFrame) (tag : String) (j : Nat),
        firstIdxWhere (fun c => c == tag) df.columns = some j →
        ∃ l, gen_plotly_dict sel df tag none = some l) := by
  constructor
  · intro sel df tag j prec l hj hl
    simp only [gen_plotly_dict, hj] at hl
    refine ⟨mapOpt_length hl, ?_⟩
    intro i h1 h2
    obtain ⟨hlab, hy, -⟩ := genEntry_shape (mapOpt_get hl i h1 h2)
    exact ⟨hlab, hy⟩
  · intro sel df tag j hj
    simp only [gen_plotly_dict, hj]
    exact mapOpt_some_of_all (fun a _ => rfl)

/-- C6 witness: on a one-row table with columns `["a", "t"]` and selector
list `["d1"]`, the output has length 1 = the selector list's length. -/
theorem gen_plotly_dict_spec_witness :
    ([DropdownEntry.mk [[Val.num 1]] [[Val.num 1]] (Val.str "d1")] :
        List DropdownEntry).length = ([Val.str "d1"] : List Val).length :=
  (gen_plotly_dict_spec.1 [Val.str "d1"]
      (DataFrame.mk ["a", "t"] [[Val.num 1, Val.str "d1"]]) "t" 1 none
      [DropdownEntry.mk [[Val.num 1]] [[Val.num 1]] (Val.str "d1")]
      (by decide) rfl).1

/-- C10: a selector value that occurs nowhere in the dropdown column does
not make `gen_plotly_dict` fail: its entry is still produced, with empty
plotted values and empty display values, for any precision. -/
theorem gen_plotly_dict_absent_selector :
    ∀ (df : DataFrame) (tag : String) (j : Nat) (s : Val) (prec : Option Nat),
      firstIdxWhere (fun c => c == tag) df.columns = some j →
      (∀ row ∈ df.rows, (row.get? j == some s) = false) →
      genEntry df j prec s = some (DropdownEntry.mk [] [] s) ∧
      gen_plotly_dict [s] df tag prec = some [DropdownEntry.mk [] [] s] := by
  intro df tag j s prec hj habs
  have hsel : selectedValues df j s = [] := by
    unfold selectedValues
    rw [filter_eq_nil_of_false habs]
    rfl
  have hentry : genEntry df j prec s = some (DropdownEntry.mk [] [] s) := by
    cases prec with
    | none => simp [genEntry, hsel]
    | some p => simp [genEntry, hsel, mapOpt]
  refine ⟨hentry, ?_⟩
  simp [gen_plotly_dict, hj, mapOpt, hentry]

/-- C10 witness: the selector `"absent"` does not occur in the dropdown
column of the one-row table, and its entry is produced with empty plotted
and display values. -/
theorem gen_plotly_dict_absent_selector_witness :
    genEntry (DataFrame.mk ["a", "t"] [[Val.num 1, Val.str "d1"]]) 1 none
        (Val.str "absent") = some (DropdownEntry.mk [] [] (Val.str "absent")) ∧
    gen_plotly_dict [Val.str "absent"]
        (DataFrame.mk ["a", "t"] [[Val.num 1, Val.str "d1"]]) "t" none =
      some [DropdownEntry.mk [] [] (Val.str "absent")] :=
  gen_plotly_dict_absent_selector (DataFrame.mk ["a", "t"] [[Val.num 1, Val.str "d1"]])
    "t" 1 (Val.str "absent") none (by decide) (by decide)

/-- C5: in both `gen_plotly_dict` (via `genEntry`) and `preprocess_data`,
the display values are the raw values rounded (`np.around`, half to even
over exact rationals) to the given precision when a precision is present,
and are the raw values themselves when it is absent; with precision 2 on
raw values `[1.2345, 2.6789]` the display values are `[1.23, 2.68]` while
the raw values remain `[1.2345, 2.6789]`. -/
theorem display_rounding_spec :
    (∀ (df : DataFrame) (j p : Nat) (s : Val) (e : DropdownEntry),
        genEntry df j (some p) s = some e → mapOpt (aroundRow p) e.y = some e.text) ∧
    (∀ (df : DataFrame) (j : Nat) (s : Val) (e : DropdownEntry),
        genEntry df j none s = some e → e.text = e.y) ∧
    (∀ (v : List Val) (labels : List String) (tag : String) (p : Nat)
        (res : PreprocessResult), preprocess_data v labels tag (some p) = some res →
        mapOpt (roundValF p) res.y_values = some res.disp_values) ∧
    (∀ (v : List Val) (labels : List String) (tag : String) (res : PreprocessResult),
        preprocess_data v labels tag none = some res →
        res.disp_values = res.y_values) ∧
    preprocess_data [Val.num 1.2345, Val.num 2.6789, Val.str "2021-01-01"]
        ["a", "b", "date"] "date" (some 2) =
      some (PreprocessResult.mk ["a", "b"] [Val.num 1.2345, Val.num 2.6789]
        [Val.num 1.23, Val.num 2.68] ["a", "b"]) := by
  refine ⟨?_, ?_, ?_, ?_, ?_⟩
  · intro df j p s e h
    simp only [genEntry] at h
    cases ht : mapOpt (aroundRow p) (selectedValues df j s) with
    | none => rw [ht] at h; exact absurd h (by simp)
    | some text =>
      rw [ht] at h
      simp only [Option.map_some', Option.some.injEq] at h
      subst h
      exact ht
  · intro df j s e h
    simp only [genEntry, Option.some.injEq] at h
    subst h
    rfl
  · intro v labels tag p res h
    obtain ⟨i, hidx⟩ := preprocess_some_idx h
    obtain ⟨-, -, -, -, -, -, hsome⟩ := preprocess_shape hidx h
    exact hsome p rfl
  · intro v labels tag res h
    obtain ⟨i, hidx⟩ := preprocess_some_idx h
    obtain ⟨-, -, -, -, -, hnone, -⟩ := preprocess_shape hidx h
    exact hnone rfl
  · have e1 : around (1.2345 : Rat) 2 = 1.23 := by
      have h : rint ((1.2345 : Rat) * 10 ^ 2) = 123 :=
        rint_lt_half _ 123 (by norm_num) (by norm_num)
      simp only [around, h]
      norm_num
    have e2 : around (2.6789 : Rat) 2 = 2.68 := by
      have h : rint ((2.6789 : Rat) * 10 ^ 2) = 268 :=
        rint_half_lt _ 267 (by norm_num) (by norm_num)
      simp only [around, h]
      norm_num
    have step : preprocess_data [Val.num 1.2345, Val.num 2.6789, Val.str "2021-01-01"]
        ["a", "b", "date"] "date" (some 2) =
        (mapOpt (roundValF 2) [Val.num 1.2345, Val.num 2.6789]).map
          (fun disp => PreprocessResult.mk ["a", "b"]
            [Val.num 1.2345, Val.num 2.6789] disp ["a", "b"]) := rfl
    rw [step]
    simp [mapOpt, roundValF, Val.astypeFloat, e1, e2]

/-- C5 witness: the rounding clause of `genEntry` applied at an empty
table (so the hypotheses are discharged definitionally): the display rows
are the rounding of the plotted rows. -/
theorem display_rounding_spec_witness :
    mapOpt (aroundRow 2) ([] : List (List Val)) = some [] :=
  display_rounding_spec.1 (DataFrame.mk [] []) 0 2 (Val.str "d")
    (DropdownEntry.mk [] [] (Val.str "d")) rfl

end PlottingTools

